import Mathlib

/-!
# Verification of the resilience / fallback layer

A shallow embedding of the resilience layer of the media server repository:
the circuit breaker and error monitor (`src/utils/error_monitor.py`), the
tiered cache (`src/utils/cache.py`), the local vector-index fallback
(`src/db/fallbacks/pinecone_fallback.py`), the local structured-store
fallback (`src/db/fallbacks/supabase_fallback.py`) and the connection
manager (`src/db/connection_manager.py`).

Timestamps (`time.time()` in the source) are modelled as natural numbers
passed explicitly to every operation that reads the clock.  Python dicts
are modelled as insertion-ordered association lists: updating an existing
key keeps its position, inserting a new key appends.
-/

namespace MediaServer

/-! ## Circuit breaker (`src/utils/error_monitor.py`, class `CircuitBreaker`) -/

/-- The three circuit states (`CircuitState` enum). -/
inductive CircuitState where
  | closed
  | «open»
  | half_open
deriving DecidableEq, Repr

/-- State of one `CircuitBreaker` object.  The constructor defaults are
`failure_threshold=5`, `recovery_timeout=60`, `reset_timeout=300`,
`state=CLOSED`, `failure_count=0`, `last_failure_time=0`,
`last_success_time=now`. -/
structure CircuitBreaker where
  failure_threshold : Nat
  recovery_timeout : Nat
  reset_timeout : Nat
  state : CircuitState
  failure_count : Nat
  last_failure_time : Nat
  last_success_time : Nat
deriving DecidableEq, Repr

/-- `CircuitBreaker.__init__` with explicit construction time. -/
def CircuitBreaker.init (failure_threshold recovery_timeout reset_timeout now : Nat) :
    CircuitBreaker :=
  { failure_threshold := failure_threshold
    recovery_timeout := recovery_timeout
    reset_timeout := reset_timeout
    state := .closed
    failure_count := 0
    last_failure_time := 0
    last_success_time := now }

/-- `CircuitBreaker.record_failure`, translated line by line.  Note that the
source assigns `self.last_failure_time = current_time` *before* testing
`current_time - self.last_failure_time > self.reset_timeout`, so the gap
tested is always `0`. -/
def CircuitBreaker.record_failure (b : CircuitBreaker) (now : Nat) : CircuitBreaker :=
  let b := { b with last_failure_time := now }
  let b := if now - b.last_failure_time > b.reset_timeout
           then { b with failure_count := 0 } else b
  let b := { b with failure_count := b.failure_count + 1 }
  if b.failure_count ≥ b.failure_threshold then { b with state := .«open» } else b

/-- `CircuitBreaker.record_success`. -/
def CircuitBreaker.record_success (b : CircuitBreaker) (now : Nat) : CircuitBreaker :=
  let b := { b with last_success_time := now }
  if b.state = .half_open then
    { b with state := .closed, failure_count := 0 }
  else b

/-- `CircuitBreaker.allow_request`: returns the decision together with the
(possibly updated) breaker state. -/
def CircuitBreaker.allow_request (b : CircuitBreaker) (now : Nat) :
    Bool × CircuitBreaker :=
  match b.state with
  | .closed => (true, b)
  | .«open» =>
      if now - b.last_failure_time > b.recovery_timeout then
        (true, { b with state := .half_open })
      else
        (false, b)
  | .half_open => (true, b)

/-- What §4.1 of the spec says `record_failure` should do: the count resets
to zero when the time since the previously recorded failure exceeds
`reset_timeout`, and only then is the new failure counted. -/
def CircuitBreaker.record_failure_speced (b : CircuitBreaker) (now : Nat) : CircuitBreaker :=
  let b := if now - b.last_failure_time > b.reset_timeout
           then { b with failure_count := 0 } else b
  let b := { b with last_failure_time := now }
  let b := { b with failure_count := b.failure_count + 1 }
  if b.failure_count ≥ b.failure_threshold then { b with state := .«open» } else b

/-- A concrete breaker: threshold 2, recovery 60, reset window 10, created at
time 0. -/
def cbExample : CircuitBreaker := CircuitBreaker.init 2 60 10 0

/-- C1: the spec claims the accumulated `failure_count` is reset to zero
whenever the time since the previous recorded failure exceeds
`reset_timeout`, so that the breaker opens exactly when the failures inside
one reset window reach the threshold and never before.  The code updates
`last_failure_time` before computing the gap, so the gap is always zero and
the count never resets: two failures 100 seconds apart (reset window 10,
threshold 2) open the breaker even though no window ever contains two
failures.  The spec-intended behaviour (`record_failure_speced`) keeps the
breaker closed with a count of 1. -/
theorem record_failure_never_resets_count :
    ((cbExample.record_failure 0).record_failure 100).state = .«open» ∧
    ((cbExample.record_failure 0).record_failure 100).failure_count = 2 ∧
    100 - (cbExample.record_failure 0).last_failure_time > cbExample.reset_timeout ∧
    ((cbExample.record_failure_speced 0).record_failure_speced 100).state = .closed ∧
    ((cbExample.record_failure_speced 0).record_failure_speced 100).failure_count = 1 := by
  decide

/-- C3: `allow_request` returns `true` and leaves the breaker unchanged in
the CLOSED and HALF_OPEN states; in the OPEN state it returns `false` when
the elapsed time since the last recorded failure does not exceed
`recovery_timeout`, and otherwise moves the state to HALF_OPEN and returns
`true`. -/
theorem allow_request_spec (b : CircuitBreaker) (now : Nat) :
    (b.state = .closed → b.allow_request now = (true, b)) ∧
    (b.state = .half_open → b.allow_request now = (true, b)) ∧
    (b.state = .«open» →
      (now - b.last_failure_time ≤ b.recovery_timeout →
        b.allow_request now = (false, b)) ∧
      (now - b.last_failure_time > b.recovery_timeout →
        b.allow_request now = (true, { b with state := .half_open }))) := by
  refine ⟨fun h => ?_, fun h => ?_, fun h => ⟨fun hle => ?_, fun hgt => ?_⟩⟩ <;>
    simp [CircuitBreaker.allow_request, h]
  · omega
  · omega

/-- An OPEN breaker used to witness `allow_request_spec`. -/
def cbOpenExample : CircuitBreaker :=
  { failure_threshold := 2, recovery_timeout := 60, reset_timeout := 10
    state := .«open», failure_count := 2, last_failure_time := 100
    last_success_time := 0 }

/-- Witness for C3 at a concrete OPEN breaker and time: 30 seconds after the
last failure (≤ 60) the request is rejected. -/
theorem allow_request_spec_witness :
    cbOpenExample.allow_request 130 = (false, cbOpenExample) :=
  ((allow_request_spec cbOpenExample 130).2.2 (by decide)).1 (by decide)

/-- C6: a `record_success` on a HALF_OPEN breaker closes the circuit and
resets `failure_count` to 0. -/
theorem record_success_half_open (b : CircuitBreaker) (now : Nat)
    (h : b.state = .half_open) :
    (b.record_success now).state = .closed ∧
    (b.record_success now).failure_count = 0 := by
  simp [CircuitBreaker.record_success, h]

/-- A HALF_OPEN breaker used to witness C6. -/
def cbHalfOpenExample : CircuitBreaker :=
  { cbOpenExample with state := .half_open }

/-- Witness for C6 at a concrete HALF_OPEN breaker. -/
theorem record_success_half_open_witness :
    (cbHalfOpenExample.record_success 200).state = .closed ∧
    (cbHalfOpenExample.record_success 200).failure_count = 0 :=
  record_success_half_open cbHalfOpenExample 200 (by decide)

/-- C9: a `record_success` on a CLOSED breaker only refreshes the
last-success timestamp: the state stays CLOSED and `failure_count` is left
untouched. -/
theorem record_success_closed (b : CircuitBreaker) (now : Nat)
    (h : b.state = .closed) :
    b.record_success now = { b with last_success_time := now } := by
  simp [CircuitBreaker.record_success, h]

/-- Witness for C9 at a concrete CLOSED breaker with a nonzero failure
count: the count survives the success. -/
theorem record_success_closed_witness :
    ({ cbOpenExample with state := .closed } : CircuitBreaker).record_success 300 =
      { cbOpenExample with state := .closed, last_success_time := 300 } :=
  record_success_closed { cbOpenExample with state := .closed } 300 (by decide)

/-! ## Tiered cache (`src/utils/cache.py`, class `Cache`)

Python dicts are insertion-ordered; `dictGet`/`dictSet`/`dictDel` model
lookup, in-place update (a new key is appended at the end, an existing key
keeps its position), and `del`. -/

/-- Python `d[k]` / `d.get(k)`. -/
def dictGet {α : Type} : List (String × α) → String → Option α
  | [], _ => none
  | p :: t, k => if p.1 = k then some p.2 else dictGet t k

/-- Python `d[k] = v`: replaces the first binding of `k` in place, or
appends a new binding at the end. -/
def dictSet {α : Type} : List (String × α) → String → α → List (String × α)
  | [], k, v => [(k, v)]
  | p :: t, k, v => if p.1 = k then (k, v) :: t else p :: dictSet t k v

/-- Python `del d[k]` (under the unique-keys invariant of a dict). -/
def dictDel {α : Type} (l : List (String × α)) (k : String) : List (String × α) :=
  l.filter (fun p => p.1 ≠ k)

/-- One file of the persistent tier: the pickled
`{key, value, created_at, expiry?}` payload (the `expiry` field is present
only when the entry was stored with a truthy expiry). -/
structure DiskEntry (α : Type) where
  value : α
  created_at : Nat
  expiry : Option Nat
deriving DecidableEq, Repr

/-- The two configuration fields of `Cache.__init__`. -/
structure Cache where
  use_disk_cache : Bool
  max_memory_items : Nat
deriving DecidableEq, Repr

/-- The mutable state: class-level `_memory_cache` and `_expiry_times`
dicts, plus the disk-cache directory keyed by hashed key
(`_get_disk_key`). -/
structure CacheState (α : Type) where
  memory : List (String × α)
  expiry : List (String × Nat)
  disk : List (String × DiskEntry α)
deriving DecidableEq, Repr

/-- The empty cache state. -/
def CacheState.empty (α : Type) : CacheState α := ⟨[], [], []⟩

/-- Ascending order on expiry times, the key function
`lambda k: self._expiry_times.get(k, float('inf'))` of
`_check_memory_cache_size` (every sorted key is a key of `_expiry_times`,
so the `inf` default is never consulted). -/
def expLe (p q : String × Nat) : Prop := p.2 ≤ q.2

instance : DecidableRel expLe := fun p q => inferInstanceAs (Decidable (p.2 ≤ q.2))

instance : IsTotal (String × Nat) expLe := ⟨fun a b => Nat.le_total a.2 b.2⟩

instance : IsTrans (String × Nat) expLe := ⟨fun _ _ _ => Nat.le_trans⟩

/-- `del self._memory_cache[key]; del self._expiry_times[key]` for one key
of the eviction loop. -/
def evictOne {α : Type} (st : CacheState α) (k : String) : CacheState α :=
  { st with memory := dictDel st.memory k, expiry := dictDel st.expiry k }

/-- `Cache._check_memory_cache_size`: when the memory tier holds more than
`max_memory_items` entries, the keys of `_expiry_times` are sorted by
expiry (Python's `sorted` is stable) and the first
`len(memory) - max_memory_items` of them are deleted from both dicts. -/
def Cache.check_memory_cache_size {α : Type} (cfg : Cache) (st : CacheState α) :
    CacheState α :=
  if st.memory.length > cfg.max_memory_items then
    let items_to_remove := st.memory.length - cfg.max_memory_items
    let sorted_keys := (st.expiry.insertionSort expLe).map Prod.fst
    (sorted_keys.take items_to_remove).foldl evictOne st
  else st

/-- The disk-tier half of `Cache.get`: read the file for the hashed key, a
lazily evicted expired entry is removed and reported as a miss, a live
entry is promoted into the memory tier.  `hash` stands for `_get_disk_key`
(the MD5 hex digest of the key). -/
def Cache.get_disk {α : Type} (cfg : Cache) (hash : String → String)
    (st : CacheState α) (now : Nat) (key : String) : Option α × CacheState α :=
  if cfg.use_disk_cache then
    match dictGet st.disk (hash key) with
    | some entry =>
        let expired : Bool := match entry.expiry with
                              | some e => decide (e < now)
                              | none => false
        if expired then
          (none, { st with disk := dictDel st.disk (hash key) })
        else
          let st := { st with memory := dictSet st.memory key entry.value }
          let st := match entry.expiry with
                    | some e => { st with expiry := dictSet st.expiry key e }
                    | none => st
          (some entry.value, cfg.check_memory_cache_size st)
    | none => (none, st)
  else (none, st)

/-- `Cache.get`: memory tier first (an expired memory entry is deleted and
the lookup falls through to the disk tier), then the disk tier; `none`
models returning the `default` argument (a miss). -/
def Cache.get {α : Type} (cfg : Cache) (hash : String → String)
    (st : CacheState α) (now : Nat) (key : String) : Option α × CacheState α :=
  match dictGet st.memory key with
  | some v =>
      match dictGet st.expiry key with
      | some e =>
          if e < now then
            Cache.get_disk cfg hash
              { st with memory := dictDel st.memory key,
                        expiry := dictDel st.expiry key } now key
          else (some v, st)
      | none => (some v, st)
  | none => Cache.get_disk cfg hash st now key

/-- `Cache.set`: write-through.  The memory tier is updated (recording the
expiry only when `time.time() + expire_in` is truthy, i.e. nonzero), the
size bound is enforced, and when the disk tier is enabled the pickled entry
is written under the hashed key. -/
def Cache.set {α : Type} (cfg : Cache) (hash : String → String)
    (st : CacheState α) (now : Nat) (key : String) (value : α)
    (expire_in : Option Nat) : Bool × CacheState α :=
  let expiry : Option Nat := expire_in.map (now + ·)
  let truthy : Option Nat := match expiry with
                             | some e => if e ≠ 0 then some e else none
                             | none => none
  let st := { st with memory := dictSet st.memory key value }
  let st := match truthy with
            | some e => { st with expiry := dictSet st.expiry key e }
            | none => st
  let st := cfg.check_memory_cache_size st
  if cfg.use_disk_cache then
    (true, { st with disk :=
              dictSet st.disk (hash key) ⟨value, now, truthy⟩ })
  else (true, st)

theorem dictGet_dictSet_self {α : Type} (l : List (String × α)) (k : String) (v : α) :
    dictGet (dictSet l k v) k = some v := by
  induction l with
  | nil => simp [dictSet, dictGet]
  | cons p t ih =>
      by_cases h : p.1 = k
      · simp [dictSet, dictGet, h]
      · simp [dictSet, dictGet, h, ih]

theorem dictGet_dictSet_ne {α : Type} (l : List (String × α)) (k k' : String) (v : α)
    (h : k' ≠ k) : dictGet (dictSet l k v) k' = dictGet l k' := by
  have hkk : ¬ (k = k') := fun hh => h hh.symm
  induction l with
  | nil => simp [dictSet, dictGet, hkk]
  | cons p t ih =>
      by_cases hp : p.1 = k
      · have hpk : ¬ (p.1 = k') := fun hh => hkk (hp.symm.trans hh)
        simp [dictSet, dictGet, hp, hkk, hpk]
      · simp only [dictSet, if_neg hp, dictGet, ih]

theorem dictGet_dictDel {α : Type} (l : List (String × α)) (k k' : String) :
    dictGet (dictDel l k) k' = if k' = k then none else dictGet l k' := by
  induction l with
  | nil => simp [dictDel, dictGet]
  | cons p t ih =>
      by_cases hp : p.1 = k
      · rw [show dictDel (p :: t) k = dictDel t k by simp [dictDel, hp]]
        rw [ih]
        by_cases he : k' = k
        · simp [he]
        · have hpk : ¬ (p.1 = k') := fun hh => he (hp.symm.trans hh).symm
          simp [he, dictGet, hpk]
      · rw [show dictDel (p :: t) k = p :: dictDel t k by simp [dictDel, hp]]
        by_cases hp' : p.1 = k'
        · have hke : ¬ (k' = k) := fun hh => hp (hp'.trans hh)
          simp [dictGet, hp', hke]
        · simp [dictGet, hp', ih]

theorem foldl_evictOne_disk {α : Type} (ks : List String) (st : CacheState α) :
    (ks.foldl evictOne st).disk = st.disk := by
  induction ks generalizing st with
  | nil => rfl
  | cons k0 ks ih => simpa [List.foldl_cons] using ih (evictOne st k0)

/-- Eviction either leaves a key's memory and expiry bindings untouched or
removes both. -/
theorem foldl_evictOne_get {α : Type} (ks : List String) (st : CacheState α) (k : String) :
    (dictGet (ks.foldl evictOne st).memory k = dictGet st.memory k ∧
     dictGet (ks.foldl evictOne st).expiry k = dictGet st.expiry k) ∨
    (dictGet (ks.foldl evictOne st).memory k = none ∧
     dictGet (ks.foldl evictOne st).expiry k = none) := by
  induction ks generalizing st with
  | nil => exact .inl ⟨rfl, rfl⟩
  | cons k0 ks ih =>
      rw [List.foldl_cons]
      rcases ih (evictOne st k0) with ⟨hm, he⟩ | ⟨hm, he⟩
      · by_cases hk : k = k0
        · subst hk
          refine .inr ⟨?_, ?_⟩
          · rw [hm]; simp [evictOne, dictGet_dictDel]
          · rw [he]; simp [evictOne, dictGet_dictDel]
        · refine .inl ⟨?_, ?_⟩
          · rw [hm]; simp [evictOne, dictGet_dictDel, hk]
          · rw [he]; simp [evictOne, dictGet_dictDel, hk]
      · exact .inr ⟨hm, he⟩

theorem check_memory_cache_size_disk {α : Type} (cfg : Cache) (st : CacheState α) :
    (cfg.check_memory_cache_size st).disk = st.disk := by
  unfold Cache.check_memory_cache_size
  split
  · exact foldl_evictOne_disk _ _
  · rfl

theorem check_memory_cache_size_get {α : Type} (cfg : Cache) (st : CacheState α)
    (k : String) :
    (dictGet (cfg.check_memory_cache_size st).memory k = dictGet st.memory k ∧
     dictGet (cfg.check_memory_cache_size st).expiry k = dictGet st.expiry k) ∨
    (dictGet (cfg.check_memory_cache_size st).memory k = none ∧
     dictGet (cfg.check_memory_cache_size st).expiry k = none) := by
  unfold Cache.check_memory_cache_size
  split
  · exact foldl_evictOne_get _ _ _
  · exact .inl ⟨rfl, rfl⟩

/-- Whatever `get` returns from the disk tier was backed by a stored entry
that was not past its expiry. -/
theorem get_disk_sound {α : Type} (cfg : Cache) (hash : String → String)
    (st : CacheState α) (now : Nat) (key : String) (w : α)
    (h : (Cache.get_disk cfg hash st now key).1 = some w) :
    ∃ entry, dictGet st.disk (hash key) = some entry ∧ entry.value = w ∧
      ∀ e, entry.expiry = some e → ¬ e < now := by
  unfold Cache.get_disk at h
  by_cases hd : cfg.use_disk_cache
  · rw [if_pos hd] at h
    cases hget : dictGet st.disk (hash key) with
    | none => rw [hget] at h; exact absurd h (by simp)
    | some entry =>
        rw [hget] at h
        cases hexp : entry.expiry with
        | none =>
            simp only [hexp] at h
            refine ⟨entry, rfl, ?_, ?_⟩
            · simpa using h
            · intro e hee
              rw [hexp] at hee
              exact absurd hee (by simp)
        | some e =>
            simp only [hexp] at h
            by_cases hlt : e < now
            · simp [hlt] at h
            · simp [hlt] at h
              refine ⟨entry, rfl, h, ?_⟩
              intro e' hee
              rw [hexp] at hee
              cases hee
              exact hlt
  · rw [if_neg hd] at h
    exact absurd h (by simp)

/-- C7: with the disk tier enabled, `set(k, v, ttl=60)` at time `t0`
followed by `get(k)` at any time up to `t0 + 60` returns `v`; a `get(k)`
strictly after `t0 + 60` is a miss; and, in any state, a value returned by
`get` is always backed by a memory- or disk-tier entry that is not past its
expiry. -/
theorem cache_ttl_roundtrip {α : Type} (cfg : Cache) (hash : String → String)
    (st : CacheState α) (t0 : Nat) (k : String) (v : α)
    (hdisk : cfg.use_disk_cache = true) :
    (∀ t1, t1 ≤ t0 + 60 →
      (Cache.get cfg hash (Cache.set cfg hash st t0 k v (some 60)).2 t1 k).1 = some v) ∧
    (∀ t1, t0 + 60 < t1 →
      (Cache.get cfg hash (Cache.set cfg hash st t0 k v (some 60)).2 t1 k).1 = none) ∧
    (∀ (st' : CacheState α) (now : Nat) (key : String) (w : α),
      (Cache.get cfg hash st' now key).1 = some w →
      (dictGet st'.memory key = some w ∧
        ∀ e, dictGet st'.expiry key = some e → ¬ e < now) ∨
      (∃ entry, dictGet st'.disk (hash key) = some entry ∧ entry.value = w ∧
        ∀ e, entry.expiry = some e → ¬ e < now)) := by
  have hne : t0 + 60 ≠ 0 := by omega
  have hset :
      (Cache.set cfg hash st t0 k v (some 60)).2 =
        { memory := (cfg.check_memory_cache_size
            ⟨dictSet st.memory k v, dictSet st.expiry k (t0 + 60), st.disk⟩).memory,
          expiry := (cfg.check_memory_cache_size
            ⟨dictSet st.memory k v, dictSet st.expiry k (t0 + 60), st.disk⟩).expiry,
          disk := dictSet (cfg.check_memory_cache_size
              ⟨dictSet st.memory k v, dictSet st.expiry k (t0 + 60), st.disk⟩).disk
            (hash k) ⟨v, t0, some (t0 + 60)⟩ } := by
    simp [Cache.set, hdisk, hne]
  refine ⟨?_, ?_, ?_⟩
  · intro t1 ht1
    rw [hset]
    rcases check_memory_cache_size_get cfg
        ⟨dictSet st.memory k v, dictSet st.expiry k (t0 + 60), st.disk⟩ k with
      ⟨hm, he⟩ | ⟨hm, he⟩
    · simp only [dictGet_dictSet_self] at hm he
      simp [Cache.get, hm, he, Nat.not_lt.mpr ht1]
    · simp [Cache.get, hm, he, Cache.get_disk, hdisk, dictGet_dictSet_self,
        Nat.not_lt.mpr ht1]
  · intro t1 ht1
    rw [hset]
    rcases check_memory_cache_size_get cfg
        ⟨dictSet st.memory k v, dictSet st.expiry k (t0 + 60), st.disk⟩ k with
      ⟨hm, he⟩ | ⟨hm, he⟩
    · simp only [dictGet_dictSet_self] at hm he
      simp [Cache.get, hm, he, Cache.get_disk, hdisk, dictGet_dictSet_self, ht1]
    · simp [Cache.get, hm, he, Cache.get_disk, hdisk, dictGet_dictSet_self, ht1]
  · intro st' now key w h
    unfold Cache.get at h
    cases hmem : dictGet st'.memory key with
    | none =>
        rw [hmem] at h
        have h2 : (Cache.get_disk cfg hash st' now key).1 = some w := by
          simpa using h
        exact .inr (get_disk_sound cfg hash st' now key w h2)
    | some v0 =>
        rw [hmem] at h
        cases hexp : dictGet st'.expiry key with
        | none =>
            rw [hexp] at h
            have h2 : v0 = w := by simpa using h
            refine .inl ⟨by simpa using h2, ?_⟩
            intro e hee
            exact absurd hee (by simp)
        | some e =>
            rw [hexp] at h
            by_cases hlt : e < now
            · have h2 : (Cache.get_disk cfg hash
                  { st' with memory := dictDel st'.memory key,
                             expiry := dictDel st'.expiry key } now key).1 = some w := by
                simpa [hlt] using h
              exact .inr (get_disk_sound cfg hash
                { st' with memory := dictDel st'.memory key,
                           expiry := dictDel st'.expiry key } now key w h2)
            · have h2 : v0 = w := by simpa [hlt] using h
              refine .inl ⟨by simpa using h2, ?_⟩
              intro e' hee
              cases hee
              exact hlt

/-- The default cache configuration (`use_disk_cache=True`,
`max_memory_items=1000`). -/
def cacheCfgDefault : Cache := ⟨true, 1000⟩

/-- Witness for C7: on the empty cache, `set("k", 7, ttl=60)` at time 0 is
read back at time 0 and missed at time 61. -/
theorem cache_ttl_roundtrip_witness :
    (Cache.get cacheCfgDefault (fun s => s)
      (Cache.set cacheCfgDefault (fun s => s) (CacheState.empty Nat) 0 "k" 7 (some 60)).2
      0 "k").1 = some 7 ∧
    (Cache.get cacheCfgDefault (fun s => s)
      (Cache.set cacheCfgDefault (fun s => s) (CacheState.empty Nat) 0 "k" 7 (some 60)).2
      61 "k").1 = none :=
  ⟨(cache_ttl_roundtrip cacheCfgDefault (fun s => s) (CacheState.empty Nat) 0 "k" 7
      rfl).1 0 (by omega),
   (cache_ttl_roundtrip cacheCfgDefault (fun s => s) (CacheState.empty Nat) 0 "k" 7
      rfl).2.1 61 (by omega)⟩

/-- A cache bounded to one memory entry and no disk tier. -/
def cacheCfgTiny : Cache := ⟨false, 1⟩

/-- Two `set`s without expiry on the one-slot cache. -/
def c2state : CacheState Nat :=
  (Cache.set cacheCfgTiny (fun s => s)
    (Cache.set cacheCfgTiny (fun s => s) (CacheState.empty Nat) 0 "a" 0 none).2
    0 "b" 0 none).2

/-- C2 fails as stated: after inserting two entries without expiry into a
memory tier bounded at one entry, the tier holds two entries, not exactly
the bound — the eviction pass only ever deletes keys present in
`_expiry_times`, so entries without an expiry are never evicted (rather
than being evicted last) and the bound can be exceeded. -/
theorem eviction_bound_counterexample :
    c2state.memory.length = 2 ∧ cacheCfgTiny.max_memory_items = 1 := by decide

theorem dictGet_mem {α : Type} (l : List (String × α)) (k : String) (e : α)
    (h : dictGet l k = some e) : (k, e) ∈ l := by
  induction l with
  | nil => exact absurd h (by simp [dictGet])
  | cons p t ih =>
      unfold dictGet at h
      by_cases hp : p.1 = k
      · rw [if_pos hp] at h
        cases h
        have hpe : (k, p.2) = p := by rw [← hp]
        rw [hpe]
        exact List.mem_cons_self p t
      · rw [if_neg hp] at h
        exact .tail _ (ih h)

theorem mem_dictGet {α : Type} (l : List (String × α)) (k : String) (e : α)
    (hn : (l.map Prod.fst).Nodup) (h : (k, e) ∈ l) : dictGet l k = some e := by
  induction l with
  | nil => exact absurd h (by simp)
  | cons p t ih =>
      rcases List.mem_cons.mp h with hh | hh
      · rw [← hh]
        simp [dictGet]
      · have hp : p.1 ≠ k := by
          intro hk
          have : k ∈ t.map Prod.fst := List.mem_map.mpr ⟨(k, e), hh, rfl⟩
          rw [List.map_cons, List.nodup_cons] at hn
          exact hn.1 (hk ▸ this)
        rw [List.map_cons, List.nodup_cons] at hn
        simp only [dictGet, if_neg hp]
        exact ih hn.2 hh

theorem keys_mem_dictGet {α : Type} (l : List (String × α)) (k : String)
    (h : k ∈ l.map Prod.fst) : ∃ e, dictGet l k = some e := by
  induction l with
  | nil => exact absurd h (by simp)
  | cons p t ih =>
      by_cases hp : p.1 = k
      · exact ⟨p.2, by simp [dictGet, hp]⟩
      · rcases List.mem_cons.mp h with hh | hh
        · exact absurd hh.symm hp
        · obtain ⟨e, he⟩ := ih hh
          exact ⟨e, by simp [dictGet, hp, he]⟩

theorem keys_dictDel {α : Type} (l : List (String × α)) (k : String) :
    (dictDel l k).map Prod.fst = (l.map Prod.fst).filter (fun x => decide (x ≠ k)) := by
  induction l with
  | nil => rfl
  | cons p t ih =>
      by_cases hp : p.1 = k
      · simp [dictDel, hp] at ih ⊢
        exact ih
      · simp [dictDel, hp] at ih ⊢
        exact ih

theorem foldl_evictOne_memory {α : Type} (ks : List String) (st : CacheState α) :
    (ks.foldl evictOne st).memory = st.memory.filter (fun p => decide (p.1 ∉ ks)) := by
  induction ks generalizing st with
  | nil => simp
  | cons k0 ks ih =>
      rw [List.foldl_cons, ih]
      show (dictDel st.memory k0).filter _ = _
      rw [dictDel, List.filter_filter]
      refine List.filter_congr ?_
      intro p _
      simp [List.mem_cons, not_or, Bool.and_comm]

theorem foldl_evictOne_expiry {α : Type} (ks : List String) (st : CacheState α) :
    (ks.foldl evictOne st).expiry = st.expiry.filter (fun p => decide (p.1 ∉ ks)) := by
  induction ks generalizing st with
  | nil => simp
  | cons k0 ks ih =>
      rw [List.foldl_cons, ih]
      show (dictDel st.expiry k0).filter _ = _
      rw [dictDel, List.filter_filter]
      refine List.filter_congr ?_
      intro p _
      simp [List.mem_cons, not_or, Bool.and_comm]

/-- Removing a present key from an association list with distinct keys
shortens it by exactly one entry. -/
theorem length_dictDel {α : Type} (l : List (String × α)) (k : String)
    (hn : (l.map Prod.fst).Nodup) (h : k ∈ l.map Prod.fst) :
    (dictDel l k).length = l.length - 1 := by
  have h1 : (dictDel l k).length = ((dictDel l k).map Prod.fst).length := by
    rw [List.length_map]
  have hfun : (fun x : String => decide (x ≠ k)) = (fun x => x != k) := by
    funext x
    by_cases hx : x = k <;> simp [hx]
  rw [h1, keys_dictDel, hfun, ← List.Nodup.erase_eq_filter hn k,
    List.length_erase_of_mem h, List.length_map]

/-- Deleting a list of distinct, present keys shortens an association list
with distinct keys by the number of deleted keys. -/
theorem length_filter_keys {α : Type} (ks : List String) (l : List (String × α))
    (hn : (l.map Prod.fst).Nodup) (hks : ks.Nodup)
    (hsub : ∀ k ∈ ks, k ∈ l.map Prod.fst) :
    (l.filter (fun p => decide (p.1 ∉ ks))).length = l.length - ks.length := by
  induction ks generalizing l with
  | nil => simp
  | cons k0 ks ih =>
      have hsplit : l.filter (fun p => decide (p.1 ∉ k0 :: ks))
          = (dictDel l k0).filter (fun p => decide (p.1 ∉ ks)) := by
        rw [dictDel, List.filter_filter]
        refine (List.filter_congr ?_).symm
        intro p _
        simp [List.mem_cons, not_or, Bool.and_comm]
      rw [hsplit]
      have hk0 : k0 ∈ l.map Prod.fst := hsub k0 (by simp)
      have hnd : ((dictDel l k0).map Prod.fst).Nodup := by
        rw [keys_dictDel]
        exact hn.filter _
      have hsub' : ∀ k ∈ ks, k ∈ (dictDel l k0).map Prod.fst := by
        intro k hk
        rw [keys_dictDel, List.mem_filter]
        refine ⟨hsub k (by simp [hk]), ?_⟩
        have : k ≠ k0 := by
          intro hh
          rw [List.nodup_cons] at hks
          exact hks.1 (hh ▸ hk)
        simpa using this
      rw [ih (dictDel l k0) hnd (List.nodup_cons.mp hks).2 hsub',
        length_dictDel l k0 hn hk0, List.length_cons]
      omega

theorem mem_keys_filter {α : Type} (l : List (String × α)) (ks : List String)
    (kk : String) (hm : kk ∈ l.map Prod.fst) (hk : kk ∉ ks) :
    kk ∈ (l.filter (fun p => decide (p.1 ∉ ks))).map Prod.fst := by
  obtain ⟨p, hp, hpe⟩ := List.mem_map.mp hm
  refine List.mem_map.mpr ⟨p, List.mem_filter.mpr ⟨hp, ?_⟩, hpe⟩
  simpa [hpe] using hk

/-- C2 (amended): when a `set` pushes the memory tier past its bound, the
eviction pass removes `min(excess, |expiring entries|)` entries — all of
them entries that carry an expiry, and all of them with expiry no later
than any surviving expiring entry.  Entries without an expiry are never
evicted, so the tier shrinks back to exactly the bound only when enough
expiring entries exist. -/
theorem check_memory_cache_size_spec {α : Type} (cfg : Cache) (st : CacheState α)
    (hmn : (st.memory.map Prod.fst).Nodup)
    (hen : (st.expiry.map Prod.fst).Nodup)
    (hsub : ∀ kk, kk ∈ st.expiry.map Prod.fst → kk ∈ st.memory.map Prod.fst)
    (hover : st.memory.length > cfg.max_memory_items) :
    (cfg.check_memory_cache_size st).memory.length
        = st.memory.length -
          min (st.memory.length - cfg.max_memory_items) st.expiry.length ∧
    (∀ kk, kk ∈ st.memory.map Prod.fst →
        kk ∉ (cfg.check_memory_cache_size st).memory.map Prod.fst →
        ∃ e, dictGet st.expiry kk = some e) ∧
    (∀ kk e1, kk ∈ st.memory.map Prod.fst →
        kk ∉ (cfg.check_memory_cache_size st).memory.map Prod.fst →
        dictGet st.expiry kk = some e1 →
        ∀ k2 e2, dictGet (cfg.check_memory_cache_size st).expiry k2 = some e2 →
          e1 ≤ e2) := by
  have hcheck : cfg.check_memory_cache_size st =
      (((st.expiry.insertionSort expLe).map Prod.fst).take
        (st.memory.length - cfg.max_memory_items)).foldl evictOne st := by
    unfold Cache.check_memory_cache_size
    rw [if_pos hover]
  have hperm : List.Perm (st.expiry.insertionSort expLe) st.expiry :=
    List.perm_insertionSort expLe st.expiry
  have hkeysperm : List.Perm ((st.expiry.insertionSort expLe).map Prod.fst)
      (st.expiry.map Prod.fst) := hperm.map Prod.fst
  have hkn : ((st.expiry.insertionSort expLe).map Prod.fst).Nodup :=
    hkeysperm.nodup_iff.mpr hen
  have hrknd : (((st.expiry.insertionSort expLe).map Prod.fst).take
      (st.memory.length - cfg.max_memory_items)).Nodup :=
    (List.take_sublist _ _).nodup hkn
  have hrsub : ∀ kk, kk ∈ ((st.expiry.insertionSort expLe).map Prod.fst).take
      (st.memory.length - cfg.max_memory_items) → kk ∈ st.expiry.map Prod.fst :=
    fun kk hk => hkeysperm.mem_iff.mp (List.mem_of_mem_take hk)
  have hinmem : ∀ kk, kk ∈ ((st.expiry.insertionSort expLe).map Prod.fst).take
      (st.memory.length - cfg.max_memory_items) → kk ∈ st.memory.map Prod.fst :=
    fun kk hk => hsub kk (hrsub kk hk)
  have hevict : ∀ kk, kk ∈ st.memory.map Prod.fst →
      kk ∉ (cfg.check_memory_cache_size st).memory.map Prod.fst →
      kk ∈ ((st.expiry.insertionSort expLe).map Prod.fst).take
        (st.memory.length - cfg.max_memory_items) := by
    intro kk hm hnot
    by_contra hk
    exact hnot (by
      rw [hcheck, foldl_evictOne_memory]
      exact mem_keys_filter st.memory _ kk hm hk)
  refine ⟨?_, ?_, ?_⟩
  · rw [hcheck, foldl_evictOne_memory,
      length_filter_keys _ st.memory hmn hrknd (fun k hk => hinmem k hk),
      List.length_take, List.length_map, hperm.length_eq]
  · intro kk hm hnot
    exact keys_mem_dictGet st.expiry kk (hrsub kk (hevict kk hm hnot))
  · intro kk e1 hm hnot he1 k2 e2 he2
    have hkrk := hevict kk hm hnot
    rw [← List.map_take] at hkrk
    obtain ⟨p, hp, hpe⟩ := List.mem_map.mp hkrk
    have hpmem : p ∈ st.expiry := hperm.mem_iff.mp (List.mem_of_mem_take hp)
    have hpget : dictGet st.expiry p.1 = some p.2 := mem_dictGet _ _ _ hen (by
      simpa using hpmem)
    have hpe1 : p.2 = e1 := by
      rw [hpe] at hpget
      rw [hpget] at he1
      exact Option.some_inj.mp he1
    have he2mem : (k2, e2) ∈ (cfg.check_memory_cache_size st).expiry :=
      dictGet_mem _ _ _ he2
    rw [hcheck, foldl_evictOne_expiry] at he2mem
    have h2 := List.mem_filter.mp he2mem
    have h2in : (k2, e2) ∈ st.expiry.insertionSort expLe :=
      hperm.mem_iff.mpr h2.1
    have h2notrk : k2 ∉ ((st.expiry.insertionSort expLe).map Prod.fst).take
        (st.memory.length - cfg.max_memory_items) := by
      have := h2.2
      simpa using this
    have happ : (k2, e2) ∈ (st.expiry.insertionSort expLe).take
          (st.memory.length - cfg.max_memory_items) ++
        (st.expiry.insertionSort expLe).drop
          (st.memory.length - cfg.max_memory_items) := by
      rw [List.take_append_drop]
      exact h2in
    have h2drop : (k2, e2) ∈ (st.expiry.insertionSort expLe).drop
        (st.memory.length - cfg.max_memory_items) := by
      rcases List.mem_append.mp happ with hh | hh
      · exact absurd (by
          rw [← List.map_take]
          exact List.mem_map.mpr ⟨(k2, e2), hh, rfl⟩) h2notrk
      · exact hh
    have hsort : List.Sorted expLe (st.expiry.insertionSort expLe) :=
      List.sorted_insertionSort expLe st.expiry
    have hsplit : List.Sorted expLe
        ((st.expiry.insertionSort expLe).take
            (st.memory.length - cfg.max_memory_items) ++
          (st.expiry.insertionSort expLe).drop
            (st.memory.length - cfg.max_memory_items)) := by
      rw [List.take_append_drop]
      exact hsort
    have hcross := (List.pairwise_append.mp hsplit).2.2
    have : expLe p (k2, e2) := hcross p hp (k2, e2) h2drop
    calc e1 = p.2 := hpe1.symm
      _ ≤ e2 := this

/-! ## Local vector index (`src/db/fallbacks/pinecone_fallback.py`)

Vector components and similarity scores are rationals; the square root used
by `np.linalg.norm` is an abstract parameter `sqrt : ℚ → ℚ`, so every
theorem below holds for the real square root in particular.  The `vectors`
table is modelled as a list in rowid order: `INSERT OR REPLACE` deletes the
conflicting row and appends the new one, and full-table scans return rows
in that order. -/

/-- One row of the `vectors` table.  (`namespace` is a reserved word in
Lean, hence `nspace`.) -/
structure StoredVector where
  id : String
  values : List ℚ
  metadata : List (String × String)
  nspace : String
deriving DecidableEq, Repr

/-- `LocalPineconeFallback._save_vector` (`INSERT OR REPLACE`). -/
def save_vector (store : List StoredVector) (id : String) (values : List ℚ)
    (metadata : List (String × String)) (nspace : String) : List StoredVector :=
  store.filter (fun v => v.id ≠ id) ++ [⟨id, values, metadata, nspace⟩]

/-- `LocalPineconeFallback._get_all_vectors`: an empty namespace (falsy in
Python) scans the whole table. -/
def get_all_vectors (store : List StoredVector) (nspace : String) :
    List StoredVector :=
  if nspace ≠ "" then store.filter (fun v => v.nspace = nspace) else store

/-- `LocalPineconeIndex._match_filter`: exact equality on every filter key. -/
def match_filter (metadata fil : List (String × String)) : Bool :=
  fil.all (fun kv =>
    match dictGet metadata kv.1 with
    | some v => v = kv.2
    | none => false)

/-- `np.dot` on equal-length vectors. -/
def dot (a b : List ℚ) : ℚ := (List.zipWith (fun x y => x * y) a b).sum

/-- `LocalPineconeFallback._cosine_similarity`; `sqrt (dot a a)` is
`np.linalg.norm(a)`, and a zero norm on either side yields 0. -/
def cosine_similarity (sqrt : ℚ → ℚ) (a b : List ℚ) : ℚ :=
  let a_norm := sqrt (dot a a)
  let b_norm := sqrt (dot b b)
  if a_norm = 0 ∨ b_norm = 0 then 0 else dot a b / (a_norm * b_norm)

/-- `LocalPineconeFallback._euclidean_similarity`: `1 / (1 + distance)`. -/
def euclidean_similarity (sqrt : ℚ → ℚ) (a b : List ℚ) : ℚ :=
  let diff := List.zipWith (fun x y => x - y) a b
  1 / (1 + sqrt (dot diff diff))

/-- `LocalPineconeFallback._calculate_similarity`: dispatch on the metric
name, defaulting to cosine. -/
def calculate_similarity (sqrt : ℚ → ℚ) (a b : List ℚ) (metric : String) : ℚ :=
  if metric = "cosine" then cosine_similarity sqrt a b
  else if metric = "euclidean" then euclidean_similarity sqrt a b
  else cosine_similarity sqrt a b

/-- The `(id, similarity, metadata)` list built by the scan loop of
`LocalPineconeIndex.query`: namespace scan, metadata filter (a `None`
filter — and hence also an empty one — filters nothing), similarity
scoring. -/
def query_scored (sqrt : ℚ → ℚ) (store : List StoredVector) (vector : List ℚ)
    (nspace : String) (fil : Option (List (String × String))) (metric : String) :
    List (String × ℚ × List (String × String)) :=
  (get_all_vectors store nspace).filterMap (fun v =>
    match fil with
    | some f =>
        if match_filter v.metadata f then
          some (v.id, calculate_similarity sqrt vector v.values metric, v.metadata)
        else none
    | none => some (v.id, calculate_similarity sqrt vector v.values metric, v.metadata))

/-- Descending order on the similarity component, the sort key of
`similarities.sort(key=lambda x: x[1], reverse=True)` (a stable sort). -/
def simGe (x y : String × ℚ × List (String × String)) : Prop := y.2.1 ≤ x.2.1

instance : DecidableRel simGe := fun x y => inferInstanceAs (Decidable (y.2.1 ≤ x.2.1))

instance : IsTotal (String × ℚ × List (String × String)) simGe :=
  ⟨fun a b => le_total b.2.1 a.2.1⟩

instance : IsTrans (String × ℚ × List (String × String)) simGe :=
  ⟨fun _ _ _ h1 h2 => le_trans h2 h1⟩

/-- `LocalPineconeIndex.query` (with `include_metadata=True`): score the
namespace- and filter-passing vectors, sort stably by descending score,
return the first `top_k`. -/
def LocalPineconeIndex.query (sqrt : ℚ → ℚ) (store : List StoredVector)
    (vector : List ℚ) (top_k : Nat) (nspace : String)
    (fil : Option (List (String × String))) (metric : String) :
    List (String × ℚ × List (String × String)) :=
  ((query_scored sqrt store vector nspace fil metric).insertionSort simGe).take top_k

/-- Inserting into a sorted list commutes with filtering by a predicate
whose holders are pairwise related (stability, `orderedInsert` step). -/
theorem filter_orderedInsert {β : Type} (r : β → β → Prop) [DecidableRel r]
    (p : β → Bool) (hpr : ∀ a b, p a = true → p b = true → r a b)
    (a : β) (l : List β) :
    (l.orderedInsert r a).filter p =
      if p a then a :: l.filter p else l.filter p := by
  induction l with
  | nil => by_cases hpa : p a <;> simp [List.orderedInsert, hpa]
  | cons b t ih =>
      by_cases hr : r a b
      · by_cases hpa : p a <;> simp [List.orderedInsert, hr, hpa]
      · by_cases hpa : p a
        · have hpb : ¬ p b = true := fun hpb => hr (hpr a b hpa hpb)
          simp [List.orderedInsert, hr, hpa, hpb, ih]
        · simp only [List.orderedInsert, if_neg hr]
          by_cases hpb : p b <;> simp [hpb, ih, hpa]

/-- Stability of insertion sort: filtering by a predicate whose holders are
pairwise related (e.g. "score equals s") commutes with sorting, so tied
elements keep their original relative order. -/
theorem filter_insertionSort {β : Type} (r : β → β → Prop) [DecidableRel r]
    (p : β → Bool) (hpr : ∀ a b, p a = true → p b = true → r a b)
    (l : List β) : (l.insertionSort r).filter p = l.filter p := by
  induction l with
  | nil => rfl
  | cons a t ih =>
      rw [List.insertionSort, filter_orderedInsert r p hpr]
      by_cases hpa : p a <;> simp [hpa, ih]

/-- The spec's worked example: `A=[1,0]`, `B=[0,1]`, `C=[1,0]`, upserted in
that order into the default namespace. -/
def exampleStore : List StoredVector :=
  save_vector
    (save_vector
      (save_vector [] "A" [1, 0] [("t", "a")] "")
      "B" [0, 1] [("t", "b")] "")
    "C" [1, 0] [("t", "c")] ""

/-- C4: every match returned by `query` comes from a stored vector in the
requested namespace whose metadata passes the filter, scored with the
configured similarity; the result is the `top_k` prefix of the stable
descending sort of the scored entries — a list that is sorted by
descending score, is a permutation of the scored list, and preserves the
original (insertion) order within every score class; and on the worked
example under the cosine metric, querying `[1,0]` with `top_k = 2` returns
`A` then `C` with score 1, while `B` scores 0. -/
theorem query_spec (sqrt : ℚ → ℚ) (store : List StoredVector) (vector : List ℚ)
    (top_k : Nat) (nspace : String) (fil : Option (List (String × String)))
    (metric : String) :
    (∀ m ∈ LocalPineconeIndex.query sqrt store vector top_k nspace fil metric,
      ∃ v, v ∈ store ∧ m.1 = v.id ∧ m.2.2 = v.metadata ∧
        m.2.1 = calculate_similarity sqrt vector v.values metric ∧
        (nspace ≠ "" → v.nspace = nspace) ∧
        (∀ f, fil = some f → match_filter v.metadata f = true)) ∧
    LocalPineconeIndex.query sqrt store vector top_k nspace fil metric
      = ((query_scored sqrt store vector nspace fil metric).insertionSort
          simGe).take top_k ∧
    List.Sorted simGe
      ((query_scored sqrt store vector nspace fil metric).insertionSort simGe) ∧
    List.Perm
      ((query_scored sqrt store vector nspace fil metric).insertionSort simGe)
      (query_scored sqrt store vector nspace fil metric) ∧
    (∀ s : ℚ,
      (((query_scored sqrt store vector nspace fil metric).insertionSort
          simGe).filter (fun x => decide (x.2.1 = s)))
        = ((query_scored sqrt store vector nspace fil metric).filter
            (fun x => decide (x.2.1 = s)))) ∧
    (sqrt 1 = 1 →
      LocalPineconeIndex.query sqrt exampleStore [1, 0] 2 "" none "cosine"
          = [("A", 1, [("t", "a")]), ("C", 1, [("t", "c")])] ∧
        cosine_similarity sqrt [1, 0] [0, 1] = 0) := by
  have hga : ∀ v, v ∈ get_all_vectors store nspace →
      v ∈ store ∧ (nspace ≠ "" → v.nspace = nspace) := by
    intro v hv
    unfold get_all_vectors at hv
    by_cases hns : nspace = ""
    · rw [if_neg (fun hne => hne hns)] at hv
      exact ⟨hv, fun hc => absurd hns hc⟩
    · rw [if_pos hns] at hv
      have hmf := List.mem_filter.mp hv
      exact ⟨hmf.1, fun _ => by simpa using hmf.2⟩
  refine ⟨?_, rfl, List.sorted_insertionSort simGe _,
    List.perm_insertionSort simGe _, ?_, ?_⟩
  · intro m hm
    have hm2 : m ∈ query_scored sqrt store vector nspace fil metric := by
      have hmt := List.mem_of_mem_take hm
      simpa using hmt
    obtain ⟨v, hv, hf⟩ := List.mem_filterMap.mp hm2
    obtain ⟨hvs, hvn⟩ := hga v hv
    cases fil with
    | none =>
        have he := Option.some.inj hf
        refine ⟨v, hvs, ?_, ?_, ?_, hvn, ?_⟩
        · rw [← he]
        · rw [← he]
        · rw [← he]
        · intro f hff
          exact absurd hff (by simp)
    | some f =>
        have hf2 : (if match_filter v.metadata f = true then
            some (v.id, calculate_similarity sqrt vector v.values metric, v.metadata)
          else none) = some m := hf
        by_cases hmatch : match_filter v.metadata f
        · rw [if_pos hmatch] at hf2
          have he := Option.some.inj hf2
          refine ⟨v, hvs, ?_, ?_, ?_, hvn, ?_⟩
          · rw [← he]
          · rw [← he]
          · rw [← he]
          · intro f' hff
            cases hff
            exact hmatch
        · rw [if_neg hmatch] at hf2
          exact absurd hf2 (by simp)
  · intro s
    refine filter_insertionSort simGe _ ?_ _
    intro a b ha hb
    simp only [decide_eq_true_eq] at ha hb
    unfold simGe
    rw [ha, hb]
  · intro h1
    have hd11 : dot [1, 0] [1, 0] = 1 := by norm_num [dot]
    have hd10 : dot [1, 0] [0, 1] = 0 := by norm_num [dot]
    have hdbb : dot [0, 1] [0, 1] = 1 := by norm_num [dot]
    have hcAA : cosine_similarity sqrt [1, 0] [1, 0] = 1 := by
      unfold cosine_similarity
      rw [hd11, h1]
      norm_num
    have hcAB : cosine_similarity sqrt [1, 0] [0, 1] = 0 := by
      unfold cosine_similarity
      rw [hd11, hdbb, hd10, h1]
      norm_num
    have hstore : exampleStore =
        [⟨"A", [1, 0], [("t", "a")], ""⟩, ⟨"B", [0, 1], [("t", "b")], ""⟩,
          ⟨"C", [1, 0], [("t", "c")], ""⟩] := by decide
    have hscored : query_scored sqrt exampleStore [1, 0] "" none "cosine" =
        [("A", cosine_similarity sqrt [1, 0] [1, 0], [("t", "a")]),
         ("B", cosine_similarity sqrt [1, 0] [0, 1], [("t", "b")]),
         ("C", cosine_similarity sqrt [1, 0] [1, 0], [("t", "c")])] := by
      rw [hstore]
      simp [query_scored, get_all_vectors, calculate_similarity]
    rw [hcAA, hcAB] at hscored
    have hsort : (([("A", (1 : ℚ), [("t", "a")]), ("B", 0, [("t", "b")]),
        ("C", 1, [("t", "c")])] :
          List (String × ℚ × List (String × String))).insertionSort simGe)
        = [("A", 1, [("t", "a")]), ("C", 1, [("t", "c")]), ("B", 0, [("t", "b")])] := by
      decide
    refine ⟨?_, hcAB⟩
    unfold LocalPineconeIndex.query
    rw [hscored, hsort]
    rfl

/-- Witness for C4 at the concrete square root `Rat.sqrt` (which agrees
with the real square root on the perfect squares the example produces): the
worked example evaluates as claimed. -/
theorem query_spec_witness :
    LocalPineconeIndex.query Rat.sqrt exampleStore [1, 0] 2 "" none "cosine"
        = [("A", 1, [("t", "a")]), ("C", 1, [("t", "c")])] ∧
      cosine_similarity Rat.sqrt [1, 0] [0, 1] = 0 :=
  (query_spec Rat.sqrt exampleStore [1, 0] 2 "" none "cosine").2.2.2.2.2
    (by decide)

/-! ## Local structured store (`src/db/fallbacks/supabase_fallback.py`)

The SQLite-backed fallback.  A table is a list of rows in rowid order; a
row binds every schema column to a cell value.  The query builder
accumulates `WHERE` clauses (`eq` → `col = ?`, `in_` → `col IN (...)`),
ordering, limit and offset; `execute` runs the `SELECT` and resets the
builder, `delete` runs the `DELETE` and does not.  Column projection
(`select`) and the JSON re-parsing of `tags`/`metadata`/`params`/`payload`
cells are not modelled: the claims use `SELECT *` on scalar columns, where
both are the identity. -/

/-- A SQLite cell value. -/
inductive Val where
  | null
  | text (s : String)
  | intv (n : Int)
  | realv (q : ℚ)
deriving DecidableEq, Repr

/-- A schema column: name and default value. -/
structure Column where
  name : String
  dflt : Val
deriving DecidableEq, Repr

/-- The `videos` table schema from `_initialize_database`: `id` is the
primary key, `status` defaults to `'processed'`, everything else to NULL. -/
def videosSchema : List Column :=
  [⟨"id", .null⟩, ⟨"filename", .null⟩, ⟨"file_path", .null⟩, ⟨"title", .null⟩,
   ⟨"description", .null⟩, ⟨"tags", .null⟩, ⟨"duration", .null⟩,
   ⟨"size_bytes", .null⟩, ⟨"format", .null⟩, ⟨"width", .null⟩,
   ⟨"height", .null⟩, ⟨"thumbnail_path", .null⟩, ⟨"created_at", .null⟩,
   ⟨"updated_at", .null⟩, ⟨"user_id", .null⟩, ⟨"metadata", .null⟩,
   ⟨"status", .text "processed"⟩]

/-- SQL equality `x = y`: NULL on either side is not a match. -/
def valEq (cell v : Val) : Bool :=
  match cell, v with
  | .null, _ => false
  | _, .null => false
  | .intv m, .realv q => decide ((m : ℚ) = q)
  | .realv q, .intv n => decide (q = (n : ℚ))
  | c, w => decide (c = w)

/-- SQLite's total value order: NULL < numbers < text. -/
def valLe (a b : Val) : Bool :=
  match a, b with
  | .null, _ => true
  | _, .null => false
  | .intv m, .intv n => decide (m ≤ n)
  | .intv m, .realv q => decide ((m : ℚ) ≤ q)
  | .realv q, .intv n => decide (q ≤ (n : ℚ))
  | .realv p, .realv q => decide (p ≤ q)
  | .text s, .text t => decide (s ≤ t)
  | .text _, _ => false
  | _, .text _ => true

/-- One accumulated `WHERE` clause. -/
inductive WhereClause where
  | eq (col : String) (v : Val)
  | isin (col : String) (vs : List Val)
deriving DecidableEq, Repr

/-- Whether a row satisfies a clause. -/
def clauseHolds (row : List (String × Val)) (c : WhereClause) : Bool :=
  match c with
  | .eq col v =>
      match dictGet row col with
      | some cell => valEq cell v
      | none => false
  | .isin col vs =>
      match dictGet row col with
      | some cell => vs.any (fun v => valEq cell v)
      | none => false

/-- The mutable fields of `TableQueryBuilder` that shape the query. -/
structure TableQueryBuilder where
  where_clauses : List WhereClause
  order_by : Option (String × Bool)
  limit_clause : Option Nat
  offset_clause : Option Nat
deriving DecidableEq, Repr

/-- `TableQueryBuilder.reset_query` (also the state of a fresh builder). -/
def TableQueryBuilder.reset_query : TableQueryBuilder := ⟨[], none, none, none⟩

/-- `TableQueryBuilder.eq`: appends a `col = ?` clause. -/
def TableQueryBuilder.eq (b : TableQueryBuilder) (col : String) (v : Val) :
    TableQueryBuilder :=
  { b with where_clauses := b.where_clauses ++ [.eq col v] }

/-- `TableQueryBuilder.in_`: appends a `col IN (...)` clause. -/
def TableQueryBuilder.in_list (b : TableQueryBuilder) (col : String)
    (vs : List Val) : TableQueryBuilder :=
  { b with where_clauses := b.where_clauses ++ [.isin col vs] }

/-- `TableQueryBuilder.limit` / `order` / `offset`. -/
def TableQueryBuilder.limit (b : TableQueryBuilder) (n : Nat) : TableQueryBuilder :=
  { b with limit_clause := some n }

def TableQueryBuilder.order (b : TableQueryBuilder) (col : String) (asc : Bool) :
    TableQueryBuilder :=
  { b with order_by := some (col, asc) }

def TableQueryBuilder.offset (b : TableQueryBuilder) (n : Nat) : TableQueryBuilder :=
  { b with offset_clause := some n }

/-- `ORDER BY col ASC|DESC` on rows. -/
def rowOrder (col : String) (asc : Bool)
    (r1 r2 : List (String × Val)) : Prop :=
  if asc then
    valLe ((dictGet r1 col).getD .null) ((dictGet r2 col).getD .null) = true
  else
    valLe ((dictGet r2 col).getD .null) ((dictGet r1 col).getD .null) = true

instance : DecidableRel (rowOrder col asc) := fun r1 r2 => by
  unfold rowOrder
  split <;> infer_instance

/-- The `{data, error}` response shape (`FallbackResponse`); `data` is a
list of row dicts.  The source's error paths return `FallbackResponse([])`
with `error=None`, so `error` stays `none` throughout. -/
structure FallbackResponse where
  data : List (List (String × Val))
  error : Option String
deriving DecidableEq, Repr

/-- The row built by `INSERT INTO t (cols…) VALUES (…)`: named columns take
the supplied value, the rest their schema default. -/
def mkRow (schema : List Column) (data : List (String × Val)) :
    List (String × Val) :=
  schema.map (fun c => (c.name, (dictGet data c.name).getD c.dflt))

/-- `TableQueryBuilder.insert`: on success the new row is appended and the
response echoes the *input* dict; a failing `INSERT` (unknown column, or a
duplicate non-NULL primary key) is caught and yields `FallbackResponse([])`
with the table unchanged. -/
def TableQueryBuilder.insert (schema : List Column) (tbl : List (List (String × Val)))
    (data : List (String × Val)) : List (List (String × Val)) × FallbackResponse :=
  if (data.map Prod.fst).all (fun k => schema.any (fun c => c.name = k)) then
    let row := mkRow schema data
    let idv := (dictGet row "id").getD .null
    if idv ≠ .null ∧ tbl.any (fun r => valEq ((dictGet r "id").getD .null) idv) then
      (tbl, ⟨[], none⟩)
    else
      (tbl ++ [row], ⟨[data], none⟩)
  else
    (tbl, ⟨[], none⟩)

/-- `TableQueryBuilder.execute`: filter by the accumulated clauses, order,
offset, limit; the builder is reset afterwards. -/
def TableQueryBuilder.execute (tbl : List (List (String × Val)))
    (b : TableQueryBuilder) : FallbackResponse × TableQueryBuilder :=
  let rows := tbl.filter (fun r => b.where_clauses.all (clauseHolds r))
  let rows := match b.order_by with
              | some (col, asc) => rows.insertionSort (rowOrder col asc)
              | none => rows
  let rows := match b.offset_clause with
              | some m => rows.drop m
              | none => rows
  let rows := match b.limit_clause with
              | some n => rows.take n
              | none => rows
  (⟨rows, none⟩, TableQueryBuilder.reset_query)

/-- `TableQueryBuilder.delete`: removes the rows matching the accumulated
clauses; the builder is *not* reset. -/
def TableQueryBuilder.delete (tbl : List (List (String × Val)))
    (b : TableQueryBuilder) : List (List (String × Val)) × FallbackResponse :=
  (tbl.filter (fun r => ¬ b.where_clauses.all (clauseHolds r)), ⟨[], none⟩)

/-- The inserted record of the C8 scenario. -/
def c8data : List (String × Val) := [("id", .text "1"), ("title", .text "x")]

/-- The table after `insert(table="videos", {id:"1", title:"x"})` on the
empty store. -/
def c8tbl : List (List (String × Val)) :=
  (TableQueryBuilder.insert videosSchema [] c8data).1

/-- The table after the subsequent `delete().eq("id","1")`. -/
def c8tblAfterDelete : List (List (String × Val)) :=
  (TableQueryBuilder.delete c8tbl
    (TableQueryBuilder.reset_query.eq "id" (.text "1"))).1

/-- C8 fails as stated: the single record returned by
`select(...).eq("id","1")` after the insert is not equal to the inserted
record — the select returns the full row, whose `status` column carries the
schema default `'processed'` and whose other columns are NULL, none of
which appear in the inserted dict. -/
theorem structured_roundtrip_counterexample :
    ((TableQueryBuilder.execute c8tbl
        (TableQueryBuilder.reset_query.eq "id" (.text "1"))).1.data ≠ [c8data]) ∧
    dictGet ((TableQueryBuilder.execute c8tbl
        (TableQueryBuilder.reset_query.eq "id" (.text "1"))).1.data.headI)
      "status" = some (.text "processed") ∧
    dictGet c8data "status" = none := by
  decide

/-- C8 (amended): the select after the insert returns exactly one record,
namely the full `videos` row: it agrees with the inserted record on every
inserted field, carries the default `'processed'` in `status`, and NULL in
every other column; after `delete` with the same predicate, the select
returns zero records. -/
theorem structured_roundtrip :
    (TableQueryBuilder.execute c8tbl
        (TableQueryBuilder.reset_query.eq "id" (.text "1"))).1.data
      = [mkRow videosSchema c8data] ∧
    (∀ kv ∈ c8data, kv ∈ mkRow videosSchema c8data) ∧
    dictGet (mkRow videosSchema c8data) "status" = some (.text "processed") ∧
    (∀ c ∈ videosSchema, c.name ≠ "id" → c.name ≠ "title" → c.name ≠ "status" →
      dictGet (mkRow videosSchema c8data) c.name = some .null) ∧
    (TableQueryBuilder.execute c8tblAfterDelete
        (TableQueryBuilder.reset_query.eq "id" (.text "1"))).1.data = [] := by
  decide

/-! ## Connection manager (`src/db/connection_manager.py`)

`get_supabase_client` / `get_pinecone_client` are modelled as functions of
the registered breaker, the health record, and oracles for the outcomes of
the I/O steps: whether the primary liveness probe succeeds, whether backup
credentials are configured, and whether the backup probe succeeds.  The
returned `probed_primary` flag records whether the primary client was
instantiated and probed at all. -/

/-- Which tier a getter handed back. -/
inductive ClientTier where
  | primary
  | backup
  | localFallback
deriving DecidableEq, Repr

/-- The exceptions a getter raises: the `RuntimeError("… circuit breaker is
open")`, or the re-raised primary instantiation/probe error. -/
inductive GetClientError where
  | circuitOpen
  | primaryFailure
deriving DecidableEq, Repr

/-- One entry of `connection_health`. -/
structure DependencyHealth where
  healthy : Bool
  last_check : Option Nat
  last_success : Option Nat
  failure_count : Nat
deriving DecidableEq, Repr

/-- Initial health record. -/
def DependencyHealth.init : DependencyHealth := ⟨false, none, none, 0⟩

/-- Outcome of one getter call. -/
structure GetClientResult where
  result : Except GetClientError ClientTier
  breaker : CircuitBreaker
  health : DependencyHealth
  probed_primary : Bool
deriving Repr

/-- `ConnectionManager._get_supabase_fallback`: backup URL+key if
configured and alive, else the local SQLite fallback (a failed backup probe
is only logged). -/
def get_supabase_fallback (backupConfigured backupOk : Bool) : ClientTier :=
  if backupConfigured then
    if backupOk then .backup else .localFallback
  else .localFallback

/-- `ConnectionManager._get_pinecone_fallback`: backup API key if
configured and alive, else the local vector-index fallback. -/
def get_pinecone_fallback (backupConfigured backupOk : Bool) : ClientTier :=
  if backupConfigured then
    if backupOk then .backup else .localFallback
  else .localFallback

/-- `ConnectionManager.get_supabase_client`.  `circuit_is_closed` delegates
to the registered breaker's `allow_request`; when it denies and
`use_fallback` is false the call raises the circuit-open error without any
I/O; a primary-probe failure is tracked (which calls `record_failure` on
the registered breaker) and then either degrades to the fallback ladder or
re-raises. -/
def ConnectionManager.get_supabase_client (b : CircuitBreaker)
    (h : DependencyHealth) (use_fallback : Bool) (now : Nat)
    (primaryOk backupConfigured backupOk : Bool) : GetClientResult :=
  let ar := b.allow_request now
  if ¬ ar.1 then
    if ¬ use_fallback then ⟨.error .circuitOpen, ar.2, h, false⟩
    else ⟨.ok (get_supabase_fallback backupConfigured backupOk), ar.2, h, false⟩
  else
    let h1 := { h with last_check := some now }
    if primaryOk then
      ⟨.ok .primary, ar.2.record_success now,
        { h1 with healthy := true, last_success := some now, failure_count := 0 },
        true⟩
    else
      let b2 := ar.2.record_failure now
      let h2 := { h1 with healthy := false, failure_count := h1.failure_count + 1 }
      if use_fallback then
        ⟨.ok (get_supabase_fallback backupConfigured backupOk), b2, h2, true⟩
      else ⟨.error .primaryFailure, b2, h2, true⟩

/-- `ConnectionManager.get_pinecone_client`: same ladder. -/
def ConnectionManager.get_pinecone_client (b : CircuitBreaker)
    (h : DependencyHealth) (use_fallback : Bool) (now : Nat)
    (primaryOk backupConfigured backupOk : Bool) : GetClientResult :=
  let ar := b.allow_request now
  if ¬ ar.1 then
    if ¬ use_fallback then ⟨.error .circuitOpen, ar.2, h, false⟩
    else ⟨.ok (get_pinecone_fallback backupConfigured backupOk), ar.2, h, false⟩
  else
    let h1 := { h with last_check := some now }
    if primaryOk then
      ⟨.ok .primary, ar.2.record_success now,
        { h1 with healthy := true, last_success := some now, failure_count := 0 },
        true⟩
    else
      let b2 := ar.2.record_failure now
      let h2 := { h1 with healthy := false, failure_count := h1.failure_count + 1 }
      if use_fallback then
        ⟨.ok (get_pinecone_fallback backupConfigured backupOk), b2, h2, true⟩
      else ⟨.error .primaryFailure, b2, h2, true⟩

/-- C5: with `use_fallback=False`, neither getter ever returns the
backup-credential client or the local fallback engine; when the breaker
denies the request they raise the circuit-open error without running the
liveness probe, and when the primary probe fails they re-raise instead of
degrading. -/
theorem get_client_no_fallback (b : CircuitBreaker) (h : DependencyHealth)
    (now : Nat) (primaryOk backupConfigured backupOk : Bool) :
    (∀ r, r = ConnectionManager.get_supabase_client b h false now primaryOk
        backupConfigured backupOk →
      (r.result ≠ .ok .backup ∧ r.result ≠ .ok .localFallback) ∧
      ((b.allow_request now).1 = false →
        r.result = .error .circuitOpen ∧ r.probed_primary = false) ∧
      ((b.allow_request now).1 = true → primaryOk = false →
        r.result = .error .primaryFailure)) ∧
    (∀ r, r = ConnectionManager.get_pinecone_client b h false now primaryOk
        backupConfigured backupOk →
      (r.result ≠ .ok .backup ∧ r.result ≠ .ok .localFallback) ∧
      ((b.allow_request now).1 = false →
        r.result = .error .circuitOpen ∧ r.probed_primary = false) ∧
      ((b.allow_request now).1 = true → primaryOk = false →
        r.result = .error .primaryFailure)) := by
  constructor
  · intro r hr
    subst hr
    unfold ConnectionManager.get_supabase_client
    cases har : (b.allow_request now).1 <;> cases hp : primaryOk <;> simp [har, hp]
  · intro r hr
    subst hr
    unfold ConnectionManager.get_pinecone_client
    cases har : (b.allow_request now).1 <;> cases hp : primaryOk <;> simp [har, hp]

/-- Witness for C5: with the concrete OPEN breaker (last failure at 100,
probed at 130, recovery timeout 60) the supabase getter raises the
circuit-open error without probing. -/
theorem get_client_no_fallback_witness :
    (ConnectionManager.get_supabase_client cbOpenExample DependencyHealth.init
        false 130 true true true).result = .error .circuitOpen ∧
    (ConnectionManager.get_supabase_client cbOpenExample DependencyHealth.init
        false 130 true true true).probed_primary = false :=
  ((get_client_no_fallback cbOpenExample DependencyHealth.init 130 true true
      true).1 _ rfl).2.1 (by decide)

/-! ## Error monitor (`src/utils/error_monitor.py`, class `ErrorMonitor`)

`track_error` is modelled with explicit failure oracles for its I/O:
`detailOk` and `summaryOk` are the outcomes of the two file writes (each
wrapped in its own try/except inside `_save_error_details` /
`_save_error_summary`), and `logOk` models an arbitrary exception raised
mid-body (at the logging call, downstream of the count, last-error and
breaker updates), which only the outer try/except can catch. -/

/-- `ErrorSeverity`. -/
inductive ErrorSeverity where
  | low
  | medium
  | high
  | critical
deriving DecidableEq, Repr

/-- One `last_errors` entry. -/
structure ErrorDetail where
  etype : String
  message : String
  context : String
  severity : ErrorSeverity
  timestamp : Nat
  count : Nat
deriving DecidableEq, Repr

/-- The mutable state of the `ErrorMonitor` singleton, together with the
files it has written and its log. -/
structure MonitorState where
  error_counts : List (String × Nat)
  last_errors : List (String × ErrorDetail)
  circuit_breakers : List (String × CircuitBreaker)
  files : List (String × String)
  log : List String
deriving DecidableEq, Repr

/-- `ErrorMonitor._save_error_details`: writes the detail file; its own
`except` turns a failed write into a log line. -/
def save_error_details (st : MonitorState) (error_key : String) (ok : Bool) :
    MonitorState :=
  if ok then { st with files := st.files ++ [(error_key, "detail")] }
  else { st with log := st.log ++ ["Error saving error details"] }

/-- `ErrorMonitor._save_error_summary`: writes `error_summary.json`; its
own `except` turns a failed write into a log line. -/
def save_error_summary (st : MonitorState) (ok : Bool) : MonitorState :=
  if ok then { st with files := st.files ++ [("error_summary.json", "summary")] }
  else { st with log := st.log ++ ["Error saving error summary"] }

/-- The body of `ErrorMonitor.track_error` (everything inside the outer
`try`), returning the state reached together with the exception pending at
the point it escaped, if any. -/
def ErrorMonitor.track_error_body (st : MonitorState)
    (error_type error_message context : String) (severity : ErrorSeverity)
    (now : Nat) (logOk detailOk summaryOk : Bool) :
    MonitorState × Option String :=
  let error_key := context ++ ":" ++ error_type
  let count := (dictGet st.error_counts error_key).getD 0 + 1
  let st1 := { st with error_counts := dictSet st.error_counts error_key count }
  let detail : ErrorDetail := ⟨error_type, error_message, context, severity, now, count⟩
  let st2 := { st1 with last_errors := dictSet st1.last_errors error_key detail }
  let st3 :=
    match dictGet st2.circuit_breakers context with
    | some brk =>
        let tripped := dictSet st2.circuit_breakers context (brk.record_failure now)
        { st2 with circuit_breakers := tripped }
    | none => st2
  if logOk then
    (save_error_summary (save_error_details st3 error_key detailOk) summaryOk, none)
  else
    (st3, some "logging raised")

/-- `ErrorMonitor.track_error`: the body wrapped in the outer
`try`/`except Exception`, whose handler only logs.  A `.ok` result models
a normal return to the caller. -/
def ErrorMonitor.track_error (st : MonitorState)
    (error_type error_message context : String) (severity : ErrorSeverity)
    (now : Nat) (logOk detailOk summaryOk : Bool) :
    Except String MonitorState :=
  match ErrorMonitor.track_error_body st error_type error_message context
      severity now logOk detailOk summaryOk with
  | (st', none) => .ok st'
  | (st', some e) => .ok { st' with log := st'.log ++ ["Error in error tracking: " ++ e] }

/-- C10: `track_error` returns normally for every input and every
combination of I/O failures — the outer handler absorbs any exception the
body raises, and the two file writes are additionally self-contained — and
the error count is incremented no matter which steps failed. -/
theorem track_error_never_throws (st : MonitorState)
    (error_type error_message context : String) (severity : ErrorSeverity)
    (now : Nat) (logOk detailOk summaryOk : Bool) :
    ∃ st', ErrorMonitor.track_error st error_type error_message context severity
        now logOk detailOk summaryOk = .ok st' ∧
      dictGet st'.error_counts (context ++ ":" ++ error_type)
        = some ((dictGet st.error_counts (context ++ ":" ++ error_type)).getD 0 + 1) := by
  unfold ErrorMonitor.track_error ErrorMonitor.track_error_body
  cases logOk <;> cases detailOk <;> cases summaryOk <;>
    cases hbrk : dictGet st.circuit_breakers context <;>
    simp [save_error_details, save_error_summary, hbrk, dictGet_dictSet_self]

/-- A three-entry over-bound state: `"a"` expires at 5, `"b"` at 3, `"c"`
never. -/
def c2evState : CacheState Nat :=
  ⟨[("a", 0), ("b", 0), ("c", 0)], [("a", 5), ("b", 3)], []⟩

/-- Witness for the amended C2 at a concrete state: three entries, bound
one, two of them expiring — exactly the two expiring entries go. -/
theorem check_memory_cache_size_spec_witness :
    (cacheCfgTiny.check_memory_cache_size c2evState).memory.length
      = c2evState.memory.length -
        min (c2evState.memory.length - cacheCfgTiny.max_memory_items)
          c2evState.expiry.length :=
  (check_memory_cache_size_spec cacheCfgTiny c2evState (by decide) (by decide)
    (by decide) (by decide)).1

end MediaServer
